import Mathlib

/-!
# Nutritionist bot: calorie / macro formulas and the food clarification dialogue

A shallow embedding of the pure parts of
`src/controllers/commandHandlers.js`, `src/controllers/foodAnalysisController.js`,
of the message routing of `src/bot/bot.js`, of `validateAnalysisResult` of
`src/services/openaiService.js` and of the job table of `src/services/scheduler.js`.

Conventions of the embedding

* A JavaScript number that is finite is an exact rational (`ℚ`); a field that
  may be `null`/`undefined` is an `Option`.  The database columns behind the
  numeric profile fields are `INTEGER`/`FLOAT`, so neither `NaN` nor an infinity
  is stored in them.
* In `scaleNutritionByWeight` the products are the products of doubles: a number
  stands for the double nearest to it and `doubleMul`, `doubleDiv` round their result
  to the nearest double.
* `Math.round x` is `⌊x + 1/2⌋` (ties go up), `Math.max`/`Math.min` are `max`/`min`.
* A JavaScript string is a `String`, processed through its list of characters.
* `Date.now()` is a natural number of milliseconds passed in explicitly.
-/

namespace NutritionistBot

/-! ## JavaScript primitives -/

/-- `Math.round`: the nearest integer, a tie going to the larger one. -/
def jsRound (x : ℚ) : ℚ := ((⌊x + 1 / 2⌋ : ℤ) : ℚ)

/-- Truthiness of a nullable number: neither `null`/`undefined` nor `0`. -/
def truthyNum : Option ℚ → Bool
  | some x => decide (x ≠ 0)
  | none => false

/-- Truthiness of a nullable string: neither `null`/`undefined` nor `''`. -/
def truthyStr : Option String → Bool
  | some s => decide (s ≠ "")
  | none => false

/-! ## `commandHandlers.js` -/

/-- The profile fields read by the calorie and macro calculations. -/
structure UserData where
  age : Option ℚ
  gender : Option String
  height : Option ℚ
  weight : Option ℚ
  activityLevel : Option String
  workoutFrequency : Option ℚ
  mainGoal : Option String
  currentMotivationLevel : Option String
  deriving DecidableEq

/-- The object literal `{}`: every field is `undefined`. -/
def emptyUserData : UserData :=
  ⟨none, none, none, none, none, none, none, none⟩

/-- Step 2 of `calculateDailyCalories`: the activity multiplier. -/
def activityMultiplier (activityLevel : Option String) : ℚ :=
  if activityLevel = some "medium" then 155 / 100
  else if activityLevel = some "high" then 1725 / 1000
  else 12 / 10

/-- Step 3 of `calculateDailyCalories`: the daily bonus of the weekly workouts. -/
def workoutBonus (workoutFrequency : Option ℚ) : ℚ :=
  match workoutFrequency with
  | some f =>
    if f = 0 then 0
    else if f ≤ 2 then (f * 400) / 7
    else if f ≤ 4 then (f * 400 * (8 / 10)) / 7
    else (f * 400 * (6 / 10)) / 7
  | none => 0

/-- Step 5 of `calculateDailyCalories`: the adjustment for the goal. -/
def goalAdjusted (mainGoal : Option String) (tdee : ℚ) : ℚ :=
  if mainGoal = some "lose_weight" then
    tdee - min 750 (max 500 (tdee * (15 / 100)))
  else if mainGoal = some "gain_muscle" then
    tdee + tdee * (12 / 100)
  else tdee

/-- Step 6 of `calculateDailyCalories`: the adjustment for the motivation level. -/
def motivationAdjusted (mainGoal motivation : Option String) (tdee adjusted : ℚ) : ℚ :=
  if motivation = some "high" then
    if mainGoal = some "lose_weight" then adjusted - tdee * (1 / 10) * (1 / 2)
    else if mainGoal = some "gain_muscle" then adjusted + tdee * (1 / 10) * (1 / 2)
    else adjusted
  else if motivation = some "low" then (adjusted + tdee) / 2
  else adjusted

/-- The function `calculateDailyCalories(userData)`. -/
def calculateDailyCalories (u : UserData) : ℚ :=
  if !truthyNum u.age || !truthyStr u.gender || !truthyNum u.height || !truthyNum u.weight then
    2000
  else
    let age := u.age.getD 0
    let height := u.height.getD 0
    let weight := u.weight.getD 0
    let bmr : ℚ :=
      if u.gender = some "male" then 10 * weight + (625 / 100) * height - 5 * age + 5
      else 10 * weight + (625 / 100) * height - 5 * age - 161
    let tdee := bmr * activityMultiplier u.activityLevel + workoutBonus u.workoutFrequency
    let adjustedCalories :=
      motivationAdjusted u.mainGoal u.currentMotivationLevel tdee (goalAdjusted u.mainGoal tdee)
    let finalCalories := jsRound adjustedCalories
    max 1200 finalCalories

/-- The object returned by `calculateTargets`. -/
structure Targets where
  targetCaloriesPerDay : ℚ
  targetProtein : ℚ
  targetFat : ℚ
  targetCarbs : ℚ
  deriving DecidableEq

/-- The goal the `switch` of `calculateTargets` runs on:
`goal || userData.mainGoal || 'maintain'`. -/
def targetsGoal (goal : Option String) (userData : UserData) : String :=
  if truthyStr goal then goal.getD ""
  else if truthyStr userData.mainGoal then userData.mainGoal.getD ""
  else "maintain"

/-- The weight `calculateTargets` uses: `userData.weight || 70`. -/
def targetsWeight (userData : UserData) : ℚ :=
  if truthyNum userData.weight then userData.weight.getD 0 else 70

/-- The grams of protein per kilogram of body weight in the `switch`. -/
def proteinPerKg (mainGoal : String) : ℚ :=
  if mainGoal = "lose_weight" then 18 / 10
  else if mainGoal = "gain_muscle" then 2
  else if mainGoal = "health" then 14 / 10
  else 16 / 10

/-- The share of the calories taken from fat in the `switch`. -/
def fatShare (mainGoal : String) : ℚ :=
  if mainGoal = "lose_weight" then 20 / 100
  else if mainGoal = "gain_muscle" then 25 / 100
  else if mainGoal = "health" then 30 / 100
  else 25 / 100

/-- The function `calculateTargets(calories, goal, userData = {})`; a caller that
omits the third argument passes `emptyUserData`. -/
def calculateTargets (calories : ℚ) (goal : Option String) (userData : UserData) : Targets :=
  let weight := targetsWeight userData
  let mainGoal := targetsGoal goal userData
  let protein0 := jsRound (weight * proteinPerKg mainGoal)
  let fat0 := jsRound (calories * fatShare mainGoal / 9)
  let carbs0 := jsRound ((calories - protein0 * 4 - fat0 * 9) / 4)
  let adjustedCalories := max 1200 calories
  let protein := max 50 (min protein0 400)
  let fat := max 35 (min fat0 200)
  let carbs1 := max 100 (min carbs0 800)
  let calculatedCalories := protein * 4 + fat * 9 + carbs1 * 4
  let carbs :=
    if |calculatedCalories - adjustedCalories| > adjustedCalories * (1 / 10) then
      max 100 (jsRound ((adjustedCalories - protein * 4 - fat * 9) / 4))
    else carbs1
  ⟨adjustedCalories, protein, fat, carbs⟩

/-- The energy of the macros of a target set: 4 kcal per gram of protein and of
carbohydrate, 9 kcal per gram of fat. -/
def macroEnergy (t : Targets) : ℚ :=
  4 * t.targetProtein + 9 * t.targetFat + 4 * t.targetCarbs

/-! ## Strings -/

/-- The class `\d` of a regular expression without the `u` flag: `0`..`9`. -/
def isDigit (c : Char) : Bool := decide (48 ≤ c.toNat ∧ c.toNat ≤ 57)

/-- The class `\s` and the characters removed by `trim`: white space and line
terminators of ECMAScript. -/
def isJsSpace (c : Char) : Bool :=
  let n := c.toNat
  decide (n = 9 ∨ n = 10 ∨ n = 11 ∨ n = 12 ∨ n = 13 ∨ n = 32 ∨ n = 160 ∨ n = 5760 ∨
    (8192 ≤ n ∧ n ≤ 8202) ∨ n = 8232 ∨ n = 8233 ∨ n = 8239 ∨ n = 8287 ∨ n = 12288 ∨ n = 65279)

/-- The method `trim` on the characters of a string. -/
def jsTrim (cs : List Char) : List Char :=
  ((cs.dropWhile isJsSpace).reverse.dropWhile isJsSpace).reverse

/-- The lower-case mapping of one character, for the Latin letters `A`..`Z` and the
Cyrillic capitals `Ѐ`..`Џ` and `А`..`Я`; every other character is left as it is. -/
def jsToLowerChar (c : Char) : Char :=
  let n := c.toNat
  if 65 ≤ n ∧ n ≤ 90 then Char.ofNat (n + 32)
  else if 1040 ≤ n ∧ n ≤ 1071 then Char.ofNat (n + 32)
  else if 1024 ≤ n ∧ n ≤ 1039 then Char.ofNat (n + 80)
  else c

/-- The method `toLowerCase` on the characters of a string. -/
def jsToLowerCase (cs : List Char) : List Char := cs.map jsToLowerChar

/-- The method `includes`: `needle` occurs in `hay` as a contiguous block. -/
def jsIncludes : List Char → List Char → Bool
  | [], needle => needle.isEmpty
  | c :: cs, needle => needle.isPrefixOf (c :: cs) || jsIncludes cs needle

/-- The value of `split(' ').length`: one more than the number of separators. -/
def jsSplitLength (sep : Char) (cs : List Char) : Nat :=
  (cs.filter (fun c => c == sep)).length + 1

/-- The value of a run of decimal digits. -/
def digitsValue (cs : List Char) : Nat :=
  cs.foldl (fun acc c => 10 * acc + (c.toNat - 48)) 0

/-! ### Backtracking matching

A sub-pattern applied to a text gives the list of its possible matches, each as
the pair of the matched characters and the remaining text, in the order in which
a backtracking matcher tries them.  The first element of the list of the whole
pattern is the match that `String.prototype.match` reports. -/

/-- The matches of `p*` (greedy): the longest run first, the empty run last. -/
def reStar (p : Char → Bool) : List Char → List (List Char × List Char)
  | [] => [([], [])]
  | c :: cs =>
    if p c then (reStar p cs).map (fun m => (c :: m.1, m.2)) ++ [([], c :: cs)]
    else [([], c :: cs)]

/-- The matches of `p+` (greedy): those of `p*` that are not empty. -/
def rePlus (p : Char → Bool) (cs : List Char) : List (List Char × List Char) :=
  (reStar p cs).filter (fun m => !m.1.isEmpty)

/-- The matches of `(?:\.\d+)?` (greedy): with the fraction first, then without. -/
def reFraction (cs : List Char) : List (List Char × List Char) :=
  (match cs with
    | c :: rest =>
      if c = '.' then (rePlus isDigit rest).map (fun m => (c :: m.1, m.2)) else []
    | [] => []) ++ [([], cs)]

/-- The matches of `(\d+(?:\.\d+)?)`. -/
def reDecimal (cs : List Char) : List (List Char × List Char) :=
  (rePlus isDigit cs).flatMap fun i =>
    (reFraction i.2).map fun f => (i.1 ++ f.1, f.2)

/-- The alternatives of `(г|кг|грамм?|килограмм?|kilogram|gram)` in the order in
which they are tried; an optional last letter is tried present first. -/
def weightUnits : List String :=
  ["г", "кг", "грамм", "грам", "килограмм", "килограм", "kilogram", "gram"]

/-- The matches of the unit group at the head of a text. -/
def reUnit (cs : List Char) : List (List Char × List Char) :=
  (weightUnits.filter (fun u => u.data.isPrefixOf cs)).map
    fun u => (u.data, cs.drop u.data.length)

/-- The matches of `(\d+(?:\.\d+)?)\s*(г|кг|грамм?|килограмм?|kilogram|gram)` that
start at the head of a text: the pairs of the two captured groups. -/
def digitUnitAt (cs : List Char) : List (List Char × List Char) :=
  (reDecimal cs).flatMap fun d =>
    (reStar isJsSpace d.2).flatMap fun s =>
      (reUnit s.2).map fun u => (d.1, u.1)

/-- The result of `trimmed.match(/(\d+(?:\.\d+)?)\s*(г|кг|…)/)`: the captures of the
first match at the leftmost position that has one. -/
def digitUnitMatch : List Char → Option (List Char × List Char)
  | [] => none
  | c :: cs =>
    match (digitUnitAt (c :: cs)).head? with
    | some m => some m
    | none => digitUnitMatch cs

/-- The result of `trimmed.match(/^(\d+(?:\.\d+)?)$/)`: the captured group. -/
def justDigitsMatch (cs : List Char) : Option (List Char) :=
  ((reDecimal cs).filter (fun m => m.2.isEmpty)).head?.map fun m => m.1

/-- The characters of an optional sign and its value. -/
def readSign : List Char → ℚ × List Char
  | c :: cs => if c = '-' then (-1, cs) else if c = '+' then (1, cs) else (1, c :: cs)
  | [] => (1, [])

/-- The exponent part of a decimal literal, as a factor, when there is a
well-formed one at the head of the text. -/
def readExponent : List Char → ℚ
  | c :: cs =>
    if c = 'e' ∨ c = 'E' then
      let neg := decide (cs.head? = some '-')
      let body := if cs.head? = some '-' ∨ cs.head? = some '+' then cs.tail else cs
      let ds := body.takeWhile isDigit
      if ds.isEmpty then 1
      else if neg then 1 / (10 : ℚ) ^ digitsValue ds
      else (10 : ℚ) ^ digitsValue ds
    else 1
  | [] => 1

/-- The function `parseFloat` on decimal text: the value of the longest prefix that
is a decimal literal, `none` when there is none (the result `NaN`).  The literal
`Infinity` is not a finite number and is `none` as well. -/
def parseFloat (cs : List Char) : Option ℚ :=
  let s := readSign (cs.dropWhile isJsSpace)
  let intDs := s.2.takeWhile isDigit
  let afterInt := s.2.dropWhile isDigit
  let fracDs := if afterInt.head? = some '.' then afterInt.tail.takeWhile isDigit else []
  let afterFrac := if afterInt.head? = some '.' then afterInt.tail.dropWhile isDigit else afterInt
  if intDs.isEmpty && fracDs.isEmpty then none
  else
    some (s.1 * ((digitsValue intDs : ℚ) + (digitsValue fracDs : ℚ) / (10 : ℚ) ^ fracDs.length)
      * readExponent afterFrac)

/-! ## `foodAnalysisController.js`: the checks on a food text -/

/-- The list `genericFoods`. -/
def genericFoods : List String :=
  ["мясо", "рыба", "сыр", "хлеб", "молоко", "масло", "салат",
   "макароны", "рис", "грибы", "овощи", "фрукты", "яйца",
   "картофель", "крупа", "мука", "сосиски", "колбаса", "пельмени"]

/-- The function `needsTypeClarification(text)`. -/
def needsTypeClarification (text : String) : Bool :=
  let textLower := jsTrim (jsToLowerCase text.data)
  genericFoods.any fun food =>
    jsIncludes textLower food.data && decide (jsSplitLength ' ' textLower ≤ 2)

/-- The function `needsWeightClarification(text)`: no digit in the text. -/
def needsWeightClarification (text : String) : Bool :=
  !text.data.any isDigit

/-- The guard `weight >= 1 && weight <= 10000 ? weight : null`. -/
def weightInRange (weight : ℚ) : Option ℚ :=
  if 1 ≤ weight ∧ weight ≤ 10000 then some weight else none

/-- The table `numberWords`, in the order of its keys. -/
def numberWords : List (String × ℚ) :=
  [("один", 1), ("два", 2), ("три", 3), ("четыре", 4), ("пять", 5),
   ("шесть", 6), ("семь", 7), ("восемь", 8), ("девять", 9), ("десять", 10),
   ("одиннадцать", 11), ("двенадцать", 12), ("тринадцать", 13), ("четырнадцать", 14),
   ("пятнадцать", 15),
   ("шестнадцать", 16), ("семнадцать", 17), ("восемнадцать", 18), ("девятнадцать", 19),
   ("двадцать", 20),
   ("тридцать", 30), ("сорок", 40), ("пятьдесят", 50), ("шестьдесят", 60),
   ("семьдесят", 70), ("восемьдесят", 80), ("девяносто", 90),
   ("сто", 100), ("двести", 200), ("триста", 300), ("четыреста", 400), ("пятьсот", 500),
   ("шестьсот", 600), ("семьсот", 700), ("восемьсот", 800), ("девятьсот", 900)]

/-- The condition of the `if` inside the loop over `numberWords`. -/
def wordApplies (trimmed : List Char) (word : String) : Bool :=
  (jsIncludes trimmed word.data &&
    (jsIncludes trimmed "г".data || jsIncludes trimmed "к".data ||
      decide (trimmed = word.data) || jsIncludes trimmed "вес".data)) ||
  decide (trimmed = word.data)

/-- The test for kilograms in the number-word path. -/
def mentionsKilograms (trimmed : List Char) : Bool :=
  jsIncludes trimmed "кг".data || jsIncludes trimmed "килограмм".data ||
    jsIncludes trimmed "kilogram".data

/-- The test for kilograms on the unit captured in the digit path. -/
def isKilogramUnit (unit : List Char) : Bool :=
  decide (unit = "кг".data ∨ unit = "килограмм".data ∨ unit = "килограмма".data ∨
    unit = "kilogram".data)

/-- The path of `parseWeightText` for a number followed by a unit. -/
def parseWithUnit (num unit : List Char) : Option ℚ :=
  match parseFloat num with
  | some weight => weightInRange (if isKilogramUnit unit then weight * 1000 else weight)
  | none => none

/-- The path of `parseWeightText` for a bare number. -/
def parseBareNumber (num : List Char) : Option ℚ :=
  match parseFloat num with
  | some weight => weightInRange weight
  | none => none

/-- The path of `parseWeightText` for a number word: the loop returns at the first
entry of the table whose condition holds. -/
def parseNumberWord (trimmed : List Char) : Option ℚ :=
  match numberWords.find? (fun e => wordApplies trimmed e.1) with
  | some e => weightInRange (if mentionsKilograms trimmed then e.2 * 1000 else e.2)
  | none => none

/-- The function `parseWeightText(text)`: the weight in grams, or `none` for `null`. -/
def parseWeightText (text : String) : Option ℚ :=
  let trimmed := jsToLowerCase (jsTrim text.data)
  match digitUnitMatch trimmed with
  | some m => parseWithUnit m.1 m.2
  | none =>
    match justDigitsMatch trimmed with
    | some num => parseBareNumber num
    | none => parseNumberWord trimmed

/-! ## `foodAnalysisController.js`: scaling a 100 g analysis -/

/-- The object `analysis.analysis.total`. -/
structure NutritionTotal where
  calories : ℚ
  protein : ℚ
  fat : ℚ
  carbs : ℚ
  deriving DecidableEq

/-- The object `analysis.analysis`; a `description` that is not a string and a
`total` that is missing are `none`. -/
structure AnalysisBody where
  description : Option String
  total : Option NutritionTotal
  deriving DecidableEq

/-- An analysis object as produced by the local search or by the AI service. -/
structure Analysis where
  success : Bool
  analysis : Option AnalysisBody
  source : Option String
  error : Option String
  deriving DecidableEq

/-- What a JavaScript function throws. -/
inductive JsError where
  | invalidAnalysis
  | typeError
  deriving DecidableEq

/-- The power `2 ^ k` for an integer exponent. -/
def pow2 (k : ℤ) : ℚ :=
  if 0 ≤ k then (2 : ℚ) ^ k.toNat else 1 / (2 : ℚ) ^ (-k).toNat

/-- The number of halvings that bring `n` below 2, at most `fuel` of them. -/
def halvings : Nat → Nat → Nat
  | 0, _ => 0
  | fuel + 1, n => if n < 2 then 0 else halvings fuel (n / 2) + 1

/-- The binary logarithm of a positive natural number, rounded down. -/
def binaryLog (n : Nat) : Nat := halvings n n

/-- The exponent of a non-zero number: the `k` with `2 ^ k ≤ |q| < 2 ^ (k + 1)`. -/
def binaryExponent (q : ℚ) : ℤ :=
  let k : ℤ := (binaryLog q.num.natAbs : ℤ) - (binaryLog q.den : ℤ)
  if pow2 k ≤ |q| then k else k - 1

/-- The nearest integer, a tie going to the even one. -/
def roundHalfEven (x : ℚ) : ℤ :=
  if x - ⌊x⌋ < 1 / 2 then ⌊x⌋
  else if 1 / 2 < x - ⌊x⌋ then ⌊x⌋ + 1
  else if ⌊x⌋ % 2 = 0 then ⌊x⌋ else ⌊x⌋ + 1

/-- The double nearest to a number: IEEE 754 binary64 with its significand of 53
bits, rounding to nearest with ties to even.  The bounds of the exponent are left
out, so a number stands for its nearest double only between `2 ^ (-1022)` and
`2 ^ 1024` in magnitude. -/
def toDouble (q : ℚ) : ℚ :=
  if q = 0 then 0
  else
    let unit := pow2 (binaryExponent q - 52)
    if q < 0 then -((roundHalfEven (-q / unit) : ℚ) * unit)
    else (roundHalfEven (q / unit) : ℚ) * unit

/-- The product `x * y` of JavaScript: the double nearest to the product of the
doubles of `x` and `y`. -/
def doubleMul (x y : ℚ) : ℚ := toDouble (toDouble x * toDouble y)

/-- The quotient `x / y` of JavaScript: the double nearest to the quotient of the
doubles of `x` and `y`. -/
def doubleDiv (x y : ℚ) : ℚ := toDouble (toDouble x / toDouble y)

/-- The value of `parseFloat(x.toFixed(1))`: `x` rounded to one decimal place, a
tie going away from zero. -/
def toFixed1 (x : ℚ) : ℚ :=
  if x < 0 then -(jsRound (-x * 10) / 10) else jsRound (x * 10) / 10

/-- The end of a match of `(\d+)\s*г` with the flag `i` at the head of a text. -/
def gramsMatchAt (cs : List Char) : Option (List Char) :=
  ((rePlus isDigit cs).flatMap fun d =>
    (reStar isJsSpace d.2).flatMap fun s =>
      match s.2 with
      | c :: rest => if c = 'г' ∨ c = 'Г' then [rest] else []
      | [] => []).head?

/-- The replacement of every match of `/(\d+)\s*г/gi` by `repl`, from left to right,
on at most `fuel` positions. -/
def replaceGramsAux (repl : List Char) : Nat → List Char → List Char
  | 0, cs => cs
  | _ + 1, [] => []
  | n + 1, c :: cs =>
    match gramsMatchAt (c :: cs) with
    | some rest => repl ++ replaceGramsAux repl n rest
    | none => c :: replaceGramsAux repl n cs

/-- The call `description.replace(/(\d+)\s*г/gi, repl)`. -/
def replaceGrams (repl : String) (description : String) : String :=
  String.mk (replaceGramsAux repl.data description.data.length description.data)

/-- The function `scaleNutritionByWeight(analysis, userWeight)`.  `render` is the
conversion of a number to a string used by the template literal.  The factor and the
four products are computed on doubles; a total of the result is the integer or the
decimal with one place that the code rounds to. -/
def scaleNutritionByWeight (render : ℚ → String) (analysis : Option Analysis)
    (userWeight : ℚ) : Except JsError Analysis :=
  match analysis with
  | none => .error .invalidAnalysis
  | some a =>
    match a.analysis with
    | none => .error .invalidAnalysis
    | some body =>
      match body.total with
      | none => .error .invalidAnalysis
      | some total =>
        let scaleFactor := doubleDiv userWeight 100
        match body.description with
        | none => .error .typeError
        | some description =>
          .ok { a with
            analysis := some { body with
              description := some (replaceGrams (render userWeight ++ "г") description)
              total := some {
                calories := jsRound (doubleMul total.calories scaleFactor)
                protein := toFixed1 (doubleMul total.protein scaleFactor)
                fat := toFixed1 (doubleMul total.fat scaleFactor)
                carbs := toFixed1 (doubleMul total.carbs scaleFactor) } } }

/-! ## The user row and the dialogues -/

/-- The columns of the `users` row that the modelled handlers read or write. -/
structure User where
  profile : UserData
  state : Option String
  pendingFoodDescription : Option String
  pendingAnalysis : Option Analysis
  foodDetailsTimeout : Option Nat
  pendingConfirmationAnalysis : Option Analysis
  targetCaloriesPerDay : Option ℚ
  targetProtein : Option ℚ
  targetFat : Option ℚ
  targetCarbs : Option ℚ
  deriving DecidableEq

/-- The messages the modelled handlers send. -/
inductive Reply where
  | typeQuestion (originalText : String)
  | weightQuestion (description : String)
  | cancelled
  | stillTooGeneric (text : String)
  | analyzing
  | analysisError
  | stateWeightAgain
  | weightOutOfRange
  | confirmation (description : Option String) (analysis : Analysis)
  | generalError
  | invalidWeightFormat
  | weightUpdated (weight : ℚ)
  | foodLookup (text : String)
  deriving DecidableEq

/-- The result of a handler: the row after it and the messages it sent. -/
structure Step where
  user : User
  replies : List Reply
  deriving DecidableEq

/-- The constant `CONSTANTS.TIMEOUTS.FOOD_DETAILS_TIMEOUT`, in minutes. -/
def FOOD_DETAILS_TIMEOUT : Nat := 10

/-- The state `CONSTANTS.ONBOARDING_STATES.AWAITING_FOOD_TYPE`. -/
def AWAITING_FOOD_TYPE : String := "awaiting_food_type"

/-- The state `CONSTANTS.ONBOARDING_STATES.AWAITING_FOOD_WEIGHT`. -/
def AWAITING_FOOD_WEIGHT : String := "awaiting_food_weight"

/-- The update that clears the pending clarification. -/
def clearPending (user : User) : User :=
  { user with
    pendingFoodDescription := none
    pendingAnalysis := none
    state := none
    foodDetailsTimeout := none }

/-- The function `sendFoodTypeClarification`, called at time `now`. -/
def sendFoodTypeClarification (now : Nat) (user : User) (originalText : String) : Step :=
  ⟨{ user with
      state := some AWAITING_FOOD_TYPE
      pendingFoodDescription := some originalText
      foodDetailsTimeout := some (now + FOOD_DETAILS_TIMEOUT * 60 * 1000) },
    [.typeQuestion originalText]⟩

/-- The function `sendFoodWeightClarification`, called at time `now`. -/
def sendFoodWeightClarification (now : Nat) (user : User) (description : String)
    (analysis : Analysis) : Step :=
  if user.state = some AWAITING_FOOD_WEIGHT then ⟨user, []⟩
  else
    ⟨{ user with
        state := some AWAITING_FOOD_WEIGHT
        pendingFoodDescription := some description
        pendingAnalysis := some analysis
        foodDetailsTimeout := some (now + FOOD_DETAILS_TIMEOUT * 60 * 1000) },
      [.weightQuestion description]⟩

/-- The function `sendFoodConfirmationMessage`. -/
def sendFoodConfirmationMessage (user : User) (description : Option String)
    (analysis : Analysis) : Step :=
  ⟨{ user with pendingConfirmationAnalysis := some analysis },
    [.confirmation description analysis]⟩

/-- The services a handler calls outside this module: the AI analysis of a text,
the validation of its result, and the rendering of a number in a string. -/
structure Services where
  analyzeFoodText : String → Analysis
  validateAnalysisResult : Analysis → String → Bool
  render : ℚ → String

/-- The function `handleFoodAnalysis`, up to its first step; the search in the
local database and the AI analysis that follow are one message `foodLookup`. -/
def handleFoodAnalysis (now : Nat) (user : User) (text : String) : Step :=
  if needsTypeClarification text then sendFoodTypeClarification now user text
  else ⟨user, [.foodLookup text]⟩

/-- The branch of `handleFoodDetailsResponse` for the state `awaiting_food_type`. -/
def answerFoodType (sv : Services) (now : Nat) (user : User) (text : String) : Step :=
  if needsTypeClarification text then ⟨user, [.stillTooGeneric text]⟩
  else
    let textWithWeight := text ++ " 100г"
    let analysis := sv.analyzeFoodText textWithWeight
    if !analysis.success then ⟨user, [.analyzing, .analysisError]⟩
    else
      match analysis.analysis.bind (fun b => b.total) with
      | none => ⟨clearPending user, [.analyzing, .generalError]⟩
      | some total =>
        if total.calories = 0 ∧ total.protein = 0 ∧ total.fat = 0 ∧ total.carbs = 0 then
          ⟨user, [.analyzing, .analysisError]⟩
        else if !sv.validateAnalysisResult analysis textWithWeight then
          ⟨user, [.analyzing, .analysisError]⟩
        else
          let s := sendFoodWeightClarification now user text analysis
          ⟨s.user, .analyzing :: s.replies⟩

/-- The branch of `handleFoodDetailsResponse` for the state `awaiting_food_weight`. -/
def answerFoodWeight (sv : Services) (user : User) (text : String) : Step :=
  match parseWeightText text with
  | none => ⟨user, [.stateWeightAgain]⟩
  | some userWeight =>
    if userWeight = 0 then ⟨user, [.stateWeightAgain]⟩
    else if userWeight ≤ 0 ∨ userWeight > 5000 then ⟨user, [.weightOutOfRange]⟩
    else
      match scaleNutritionByWeight sv.render user.pendingAnalysis userWeight with
      | .error _ => ⟨clearPending user, [.generalError]⟩
      | .ok scaledAnalysis =>
        let s := sendFoodConfirmationMessage (clearPending user)
          (scaledAnalysis.analysis.bind (fun b => b.description)) scaledAnalysis
        ⟨s.user, s.replies⟩

/-- The function `handleFoodDetailsResponse`, called at time `now`. -/
def handleFoodDetailsResponse (sv : Services) (now : Nat) (user : User) (text : String) :
    Step :=
  if text = "⭕ Отменить" then ⟨clearPending user, [.cancelled]⟩
  else if user.state = some AWAITING_FOOD_TYPE then answerFoodType sv now user text
  else if user.state = some AWAITING_FOOD_WEIGHT then answerFoodWeight sv user text
  else handleFoodAnalysis now user text

/-- The branch of `handleSettingsInput` for the state `settings_waiting_weight`. -/
def settingsWeightInput (user : User) (text : String) : Step :=
  match parseFloat (jsTrim text.data) with
  | none => ⟨user, [.invalidWeightFormat]⟩
  | some weight =>
    if weight < 30 ∨ weight > 300 then ⟨user, [.invalidWeightFormat]⟩
    else
      let updated : User :=
        { user with profile := { user.profile with weight := some weight }, state := none }
      let baseCalories := calculateDailyCalories updated.profile
      let targets := calculateTargets baseCalories updated.profile.mainGoal emptyUserData
      ⟨{ updated with
          targetCaloriesPerDay := some targets.targetCaloriesPerDay
          targetProtein := some targets.targetProtein
          targetFat := some targets.targetFat
          targetCarbs := some targets.targetCarbs },
        [.weightUpdated weight]⟩

/-- The function `handleSettingsInput` on its branch for the weight; the branches for
the other settings are not part of this development and give `none`. -/
def handleSettingsInput (user : User) (text : String) : Option Step :=
  if user.state = some "settings_waiting_weight" then some (settingsWeightInput user text)
  else none

/-- Where the handler of `bot.on('message')` sends a text. -/
inductive Routed where
  | ignored
  | button
  | command
  | notRegistered
  | foodDetails (step : Step)
  | settings
  | onboarding
  | foodAnalysis (step : Step)
  deriving DecidableEq

/-- The test `CONSTANTS.REGEX.COMMAND.test(text)` for `/^\/[a-zA-Z_]+/`. -/
def isCommand (text : String) : Bool :=
  match text.data with
  | c :: d :: _ =>
    decide (c = '/') &&
      decide ((65 ≤ d.toNat ∧ d.toNat ≤ 90) ∨ (97 ≤ d.toNat ∧ d.toNat ≤ 122) ∨ d = '_')
  | _ => false

/-- The handler of `bot.on('message')` at time `now`; `buttons` are the labels of
the five keyboard buttons, `user` is the row found for the sender. -/
def onMessage (sv : Services) (buttons : List String) (now : Nat) (user : Option User)
    (text : String) : Routed :=
  if text = "" then .ignored
  else if text ∈ buttons then .button
  else if isCommand text then .command
  else
    match user with
    | none => .notRegistered
    | some u =>
      if truthyStr u.state then
        if u.state = some AWAITING_FOOD_TYPE ∨ u.state = some AWAITING_FOOD_WEIGHT then
          .foodDetails (handleFoodDetailsResponse sv now u text)
        else if ((u.state.getD "").startsWith "settings_waiting_") then .settings
        else .onboarding
      else .foodAnalysis (handleFoodAnalysis now u text)

/-- The row of a registered user with no dialogue open. -/
def idleUser (profile : UserData) : User :=
  ⟨profile, none, none, none, none, none, none, none, none, none⟩

/-- The words of the claim on rounding: `result` is `exact` rounded to a whole number
of `unit`s, that is a multiple of `unit` at most half a `unit` away from `exact`. -/
def RoundedTo (unit exact result : ℚ) : Prop :=
  (∃ n : ℤ, result = n * unit) ∧ |result - exact| ≤ unit / 2

/-! ## Sample data -/

/-- A registered user who has opened the weight setting: 30 years, 180 cm, 80 kg,
goal `lose_weight`. -/
def sampleUser : User :=
  ⟨⟨some 30, some "male", some 180, some 80, some "medium", some 3, some "lose_weight",
      some "medium"⟩,
    some "settings_waiting_weight", none, none, none, none,
    some 2000, some 144, some 50, some 200⟩

/-- A profile of 200 kg, 200 cm, 20 years, very active, goal `maintain`. -/
def heavyProfile : UserData :=
  ⟨some 20, some "male", some 200, some 200, some "high", some 7, some "maintain", none⟩

/-- A `userData` argument that carries a weight of 150 kg only. -/
def weight150 : UserData :=
  ⟨none, none, none, some 150, none, none, none, none⟩

/-- Sample labels of the five keyboard buttons. -/
def sampleButtons : List String :=
  ["Добавить еду", "Рецепты", "Статистика", "Настройки", "Помощь"]

/-- A validated analysis of 100 g of chicken. -/
def chickenPer100g : Analysis :=
  ⟨true, some ⟨some "Курица 100г", some ⟨165, 31, 36 / 10, 0⟩⟩, none, none⟩

/-- A user whose weight clarification was opened at time `0`. -/
def waitingForWeight : User :=
  (sendFoodWeightClarification 0 (idleUser emptyUserData) "курица" chickenPer100g).user

/-- A user whose type clarification for the text `мясо` was opened at time `0`. -/
def waitingForType : User :=
  (sendFoodTypeClarification 0 (idleUser emptyUserData) "мясо").user

/-- The analysis `chickenPer100g` scaled to 200 g. -/
def scaledChicken (sv : Services) : Analysis :=
  ⟨true, some ⟨some (replaceGrams (sv.render 200 ++ "г") "Курица 100г"),
    some ⟨330, 62, 72 / 10, 0⟩⟩, none, none⟩

/-! ## `openaiService.js`: the validation of an analysis result -/

deriving instance DecidableEq for Except

/-- A JavaScript value as `JSON.parse` or an object literal builds it; an object is
the list of its own properties. -/
inductive JsValue where
  | undefined
  | null
  | bool (b : Bool)
  | number (q : ℚ)
  | nan
  | infinity (positive : Bool)
  | string (s : String)
  | object (fields : List (String × JsValue))

namespace JsValue

/-- The values `undefined` and `null`, on which reading a property throws. -/
def nullish : JsValue → Bool
  | undefined => true
  | null => true
  | _ => false

/-- Truthiness: `undefined`, `null`, `false`, `0`, `NaN` and `''` are falsy. -/
def truthy : JsValue → Bool
  | undefined => false
  | null => false
  | bool b => b
  | number q => decide (q ≠ 0)
  | nan => false
  | infinity _ => true
  | string s => decide (s ≠ "")
  | object _ => true

/-- The value of the property `key` of a value that is not nullish; a property that
is missing, and any property of a primitive read here, is `undefined`. -/
def field (v : JsValue) (key : String) : JsValue :=
  match v with
  | object fields => (fields.lookup key).getD undefined
  | _ => undefined

end JsValue

/-- The property `length` of a string: its number of UTF-16 code units. -/
def jsLength (s : String) : Nat :=
  (s.data.map fun c => if c.toNat < 65536 then 1 else 2).sum

/-- The checks on the product name at the end of `validateAnalysisResult`, on the
lower-cased input text and description. -/
def nameConsistent (inputLower descLower : List Char) : Bool :=
  let containsBanana := jsIncludes descLower "банан".data || jsIncludes descLower "banana".data
  let containsBroccoli :=
    jsIncludes descLower "брокколи".data || jsIncludes descLower "broccoli".data
  let containsApple := jsIncludes descLower "яблоко".data || jsIncludes descLower "apple".data
  let containsMilk := jsIncludes descLower "молоко".data || jsIncludes descLower "milk".data
  if jsIncludes inputLower "банан".data && !containsBanana then false
  else if jsIncludes inputLower "брокколи".data && !containsBroccoli then false
  else if jsIncludes inputLower "яблоко".data && !containsApple then false
  else if jsIncludes inputLower "молоко".data && !containsMilk then false
  else if jsIncludes inputLower "курица".data && !jsIncludes descLower "курица".data &&
      !jsIncludes descLower "chicken".data then false
  else if jsIncludes inputLower "рыба".data && !jsIncludes descLower "рыба".data &&
      !jsIncludes descLower "fish".data && !jsIncludes descLower "salmon".data then false
  else true

/-- The body of the `try` block of `validateAnalysisResult(result, text)`: the value
it returns, or what it throws. -/
def validateChecks (result text : JsValue) : Except JsError Bool :=
  if result.nullish then .error .typeError
  else if !(result.field "success").truthy || !(result.field "analysis").truthy then .ok false
  else
    let description := (result.field "analysis").field "description"
    let total := (result.field "analysis").field "total"
    match description with
    | .string d =>
      if d = "" ∨ jsLength d < 2 then .ok false
      else if total.nullish then .error .typeError
      else
        match total.field "calories", total.field "protein", total.field "fat",
          total.field "carbs" with
        | .number calories, .number protein, .number fat, .number carbs =>
          if calories ≤ 0 ∨ calories > 50000 ∨ protein < 0 ∨ fat < 0 ∨ carbs < 0 then .ok false
          else
            match text with
            | .string t => .ok (nameConsistent (jsToLowerCase t.data) (jsToLowerCase d.data))
            | _ => .error .typeError
        | _, _, _, _ => .ok false
    | _ => .ok false

/-- The function `validateAnalysisResult(result, text)`: whatever the `try` block
throws is caught and `false` is returned. -/
def validateAnalysisResult (result text : JsValue) : Except JsError Bool :=
  match validateChecks result text with
  | .ok valid => .ok valid
  | .error _ => .ok false

/-- A number that is finite: what `isValid` accepts. -/
def JsValue.finiteNumber (v : JsValue) : Option ℚ :=
  match v with
  | .number q => some q
  | _ => none

/-- The result object of a valid analysis of 100 g of chicken. -/
def chickenResult : JsValue :=
  .object [("success", .bool true),
    ("analysis", .object [("description", .string "Курица 100г"),
      ("total", .object [("calories", .number 165), ("protein", .number 31),
        ("fat", .number (36 / 10)), ("carbs", .number 0)])])]

/-- A result object with `success` and a described `analysis` that has no `total`. -/
def resultWithoutTotal : JsValue :=
  .object [("success", .bool true),
    ("analysis", .object [("description", .string "Курица 100г")])]

/-! ## `scheduler.js`: the jobs of the users

Each call runs to its end before the next one starts.  A cron task is identified by
a handle, a number that no other task has. -/

/-- The table `SCHEDULE_TYPES`. -/
def SCHEDULE_TYPES : List (String × String) :=
  [("morning", "0 7 * * *"), ("midday", "0 12 * * *"), ("evening", "0 19 * * *"),
   ("reminder", "0 */4 * * *")]

/-- The fields of a user that the scheduler reads. -/
structure SchedulerUser where
  id : Nat
  timezone : Option String
  deriving DecidableEq

/-- A notification object of `getUserNotifications`. -/
structure Notification where
  type : String
  userId : Nat
  id : Nat
  deriving DecidableEq

/-- The function `getUserNotifications(user)`. -/
def getUserNotifications (user : SchedulerUser) : List Notification :=
  [⟨"morning", user.id, 1⟩, ⟨"midday", user.id, 2⟩, ⟨"evening", user.id, 3⟩,
   ⟨"reminder", user.id, 4⟩]

/-- A task of the cron library, as made by `cron.schedule`. -/
structure CronJob where
  handle : Nat
  expression : String
  timezone : String
  notification : Notification
  running : Bool
  deriving DecidableEq

/-- The state of the scheduler: the map `activeJobs` from user ids to arrays of task
handles, in the order of insertion, every task made so far in the order of creation,
and the handle of the next task. -/
structure SchedulerState where
  activeJobs : List (Nat × List Nat)
  tasks : List CronJob
  nextHandle : Nat
  deriving DecidableEq

/-- The state when the module is loaded: `new Map()` and no task. -/
def emptyScheduler : SchedulerState := ⟨[], [], 0⟩

/-- The method `Map.prototype.get`. -/
def mapGet : List (Nat × List Nat) → Nat → Option (List Nat)
  | [], _ => none
  | e :: rest, key => if e.1 = key then some e.2 else mapGet rest key

/-- The method `Map.prototype.has`. -/
def mapHas (m : List (Nat × List Nat)) (key : Nat) : Bool := (mapGet m key).isSome

/-- The method `Map.prototype.delete`. -/
def mapDelete (m : List (Nat × List Nat)) (key : Nat) : List (Nat × List Nat) :=
  m.filter fun e => decide (e.1 ≠ key)

/-- The method `Map.prototype.set`: the value of a present key is replaced in place, a
new key is added at the end. -/
def mapSet (m : List (Nat × List Nat)) (key : Nat) (value : List Nat) :
    List (Nat × List Nat) :=
  if mapHas m key then m.map fun e => if e.1 = key then (key, value) else e
  else m ++ [(key, value)]

/-- The method `stop` of the task with the given handle. -/
def stopJob (tasks : List CronJob) (handle : Nat) : List CronJob :=
  tasks.map fun j => if j.handle = handle then { j with running := false } else j

/-- The function `stopUserScheduler(userId)`. -/
def stopUserScheduler (s : SchedulerState) (userId : Nat) : SchedulerState :=
  match mapGet s.activeJobs userId with
  | some jobs =>
    { s with
      tasks := jobs.foldl stopJob s.tasks
      activeJobs := mapDelete s.activeJobs userId }
  | none => s

/-- The body of the `forEach` of `startUserScheduler` for one notification, on the
state and the array `jobs`: a task is made stopped by `cron.schedule` and started by
the statement that follows, which is one step here. -/
def scheduleNotification (user : SchedulerUser) (acc : SchedulerState × List Nat)
    (notification : Notification) : SchedulerState × List Nat :=
  match SCHEDULE_TYPES.lookup notification.type with
  | some cronExpression =>
    if cronExpression = "" then acc
    else
      let timezone := if truthyStr user.timezone then user.timezone.getD "" else "Europe/Moscow"
      let job : CronJob := ⟨acc.1.nextHandle, cronExpression, timezone, notification, true⟩
      ({ acc.1 with tasks := acc.1.tasks ++ [job], nextHandle := acc.1.nextHandle + 1 },
        acc.2 ++ [job.handle])
  | none => acc

/-- The function `startUserScheduler(user)`. -/
def startUserScheduler (s : SchedulerState) (user : SchedulerUser) : SchedulerState :=
  let stopped := if mapHas s.activeJobs user.id then stopUserScheduler s user.id else s
  let scheduled := (getUserNotifications user).foldl (scheduleNotification user) (stopped, [])
  { scheduled.1 with activeJobs := mapSet scheduled.1.activeJobs user.id scheduled.2 }

/-- A call of the scheduler. -/
inductive SchedulerCall where
  | start (user : SchedulerUser)
  | stop (userId : Nat)
  deriving DecidableEq

/-- The effect of one call. -/
def applyCall (s : SchedulerState) : SchedulerCall → SchedulerState
  | .start user => startUserScheduler s user
  | .stop userId => stopUserScheduler s userId

/-- The effect of a sequence of calls made one after another on the initial state. -/
def runCalls (calls : List SchedulerCall) : SchedulerState :=
  calls.foldl applyCall emptyScheduler

/-- The handles of the tasks of a user that are running, in the order of creation. -/
def runningJobs (s : SchedulerState) (userId : Nat) : List Nat :=
  (s.tasks.filter fun j => j.running && decide (j.notification.userId = userId)).map
    fun j => j.handle

/-- The array of a user in `activeJobs`, empty when the user has no entry. -/
def entryJobs (s : SchedulerState) (userId : Nat) : List Nat :=
  (mapGet s.activeJobs userId).getD []

/-- The invariant of the scheduler: the keys of `activeJobs` are distinct, the handles
of the tasks are distinct and below the next handle, the running tasks of every user
are the tasks of the user's entry, and every entry holds four tasks. -/
structure SchedulerInv (s : SchedulerState) : Prop where
  keys : (s.activeJobs.map Prod.fst).Nodup
  handles : (s.tasks.map fun j => j.handle).Nodup
  below : ∀ j ∈ s.tasks, j.handle < s.nextHandle
  running : ∀ userId, runningJobs s userId = entryJobs s userId
  four : ∀ userId jobs, mapGet s.activeJobs userId = some jobs → jobs.length = 4

/-- The four tasks that `startUserScheduler` makes for a user when the next handle
is `n`. -/
def freshJobs (user : SchedulerUser) (n : Nat) : List CronJob :=
  let timezone := if truthyStr user.timezone then user.timezone.getD "" else "Europe/Moscow"
  [⟨n, "0 7 * * *", timezone, ⟨"morning", user.id, 1⟩, true⟩,
   ⟨n + 1, "0 12 * * *", timezone, ⟨"midday", user.id, 2⟩, true⟩,
   ⟨n + 2, "0 19 * * *", timezone, ⟨"evening", user.id, 3⟩, true⟩,
   ⟨n + 3, "0 */4 * * *", timezone, ⟨"reminder", user.id, 4⟩, true⟩]

/-! ## Rounding -/

theorem jsRound_le (x : ℚ) : jsRound x ≤ x + 1 / 2 := Int.floor_le _

theorem lt_jsRound (x : ℚ) : x - 1 / 2 < jsRound x := by
  have h := Int.lt_floor_add_one (x + 1 / 2)
  unfold jsRound
  linarith

theorem jsRound_lt_hundred (x : ℚ) (h : jsRound x < 100) : x + 1 / 2 < 100 := by
  unfold jsRound at h
  have h1 : ⌊x + 1 / 2⌋ < (100 : ℤ) := by exact_mod_cast h
  have h2 := Int.floor_lt.mp h1
  exact_mod_cast h2

/-- A value rounded by `toFixed1` is a whole number of tenths. -/
theorem toFixed1_tenths (x : ℚ) : ∃ n : ℤ, toFixed1 x = n / 10 := by
  unfold toFixed1 jsRound
  split
  · exact ⟨-⌊-x * 10 + 1 / 2⌋, by push_cast; ring⟩
  · exact ⟨⌊x * 10 + 1 / 2⌋, rfl⟩

/-- A value rounded by `toFixed1` is within half a tenth of the exact value. -/
theorem toFixed1_near (x : ℚ) : |toFixed1 x - x| ≤ 1 / 20 := by
  unfold toFixed1
  split
  · have h1 := jsRound_le (-x * 10)
    have h2 := lt_jsRound (-x * 10)
    rw [abs_le]
    constructor <;> linarith
  · have h1 := jsRound_le (x * 10)
    have h2 := lt_jsRound (x * 10)
    rw [abs_le]
    constructor <;> linarith

theorem jsRound_roundedTo (x : ℚ) : RoundedTo 1 x (jsRound x) := by
  refine ⟨⟨⌊x + 1 / 2⌋, by simp [jsRound]⟩, ?_⟩
  have h1 := jsRound_le x
  have h2 := lt_jsRound x
  rw [abs_le]
  constructor <;> linarith

theorem toFixed1_roundedTo (x : ℚ) : RoundedTo (1 / 10) x (toFixed1 x) := by
  obtain ⟨n, hn⟩ := toFixed1_tenths x
  refine ⟨⟨n, by rw [hn]; ring⟩, ?_⟩
  have h := toFixed1_near x
  norm_num
  linarith

theorem weightInRange_bounds (w r : ℚ) (h : weightInRange w = some r) :
    1 ≤ r ∧ r ≤ 10000 := by
  unfold weightInRange at h
  split_ifs at h with hw
  cases h
  exact hw

/-! ## Calories and macro targets -/

/-- Claim C1: for every profile, whatever its fields hold, `calculateDailyCalories`
returns at least 1200 kcal; the default of 2000 kcal for an incomplete profile is
covered. -/
theorem calculateDailyCalories_ge_1200 (u : UserData) : 1200 ≤ calculateDailyCalories u := by
  unfold calculateDailyCalories
  split
  · norm_num
  · exact le_max_left _ _

/-- Claim C2: for every calories value, goal and user data, `calculateTargets` returns
at least 1200 kcal, between 50 and 400 g of protein and between 35 and 200 g of fat. -/
theorem calculateTargets_bounds (calories : ℚ) (goal : Option String) (userData : UserData) :
    1200 ≤ (calculateTargets calories goal userData).targetCaloriesPerDay ∧
    50 ≤ (calculateTargets calories goal userData).targetProtein ∧
    (calculateTargets calories goal userData).targetProtein ≤ 400 ∧
    35 ≤ (calculateTargets calories goal userData).targetFat ∧
    (calculateTargets calories goal userData).targetFat ≤ 200 := by
  simp only [calculateTargets]
  refine ⟨le_max_left _ _, le_max_left _ _, ?_, le_max_left _ _, ?_⟩
  · exact max_le (by norm_num) (min_le_right _ _)
  · exact max_le (by norm_num) (min_le_right _ _)

/-- Claim C3, evaluated where it fails: for 6000 kcal and the goal `maintain` the
carbohydrate target returned is 1012 g, above the limit of 800 g; the profile
`heavyProfile` gets 5682 kcal from `calculateDailyCalories` and then 953 g. -/
theorem calculateTargets_carbs_above_800 :
    (calculateTargets 6000 (some "maintain") emptyUserData).targetCarbs = 1012 ∧
    calculateDailyCalories heavyProfile = 5682 ∧
    (calculateTargets (calculateDailyCalories heavyProfile) heavyProfile.mainGoal
      emptyUserData).targetCarbs = 953 := by
  decide!

/-- Claim C4, evaluated where it fails: for 1500 kcal, the goal `lose_weight` and a
weight of 150 kg in the user data, the macros returned are 270 g of protein, 35 g of
fat and 100 g of carbs, which carry 1795 kcal, more than 10% away from the 1500 kcal
returned. -/
theorem calculateTargets_energy_off :
    calculateTargets 1500 (some "lose_weight") weight150 = ⟨1500, 270, 35, 100⟩ ∧
    macroEnergy (calculateTargets 1500 (some "lose_weight") weight150) = 1795 ∧
    (calculateTargets 1500 (some "lose_weight") weight150).targetCaloriesPerDay = 1500 ∧
    ¬ (|macroEnergy (calculateTargets 1500 (some "lose_weight") weight150) -
          (calculateTargets 1500 (some "lose_weight") weight150).targetCaloriesPerDay| ≤
        (calculateTargets 1500 (some "lose_weight") weight150).targetCaloriesPerDay *
          (1 / 10)) := by
  decide!

/-- The energy of the macros returned by `calculateTargets` is within 10% of the
calories returned exactly when the protein and fat returned, together with the
minimum of 100 g of carbohydrate, fit into 110% of these calories. -/
theorem calculateTargets_energy_iff (calories : ℚ) (goal : Option String)
    (userData : UserData) :
    |macroEnergy (calculateTargets calories goal userData) -
        (calculateTargets calories goal userData).targetCaloriesPerDay| ≤
      (calculateTargets calories goal userData).targetCaloriesPerDay * (1 / 10) ↔
    4 * (calculateTargets calories goal userData).targetProtein +
        9 * (calculateTargets calories goal userData).targetFat + 400 ≤
      (calculateTargets calories goal userData).targetCaloriesPerDay * (11 / 10) := by
  simp only [calculateTargets, macroEnergy]
  set adj := max 1200 calories with hadj
  set p := max 50
    (min (jsRound (targetsWeight userData * proteinPerKg (targetsGoal goal userData))) 400)
    with hp
  set f := max 35 (min (jsRound (calories * fatShare (targetsGoal goal userData) / 9)) 200)
    with hf
  generalize jsRound ((calories -
    jsRound (targetsWeight userData * proteinPerKg (targetsGoal goal userData)) * 4 -
    jsRound (calories * fatShare (targetsGoal goal userData) / 9) * 9) / 4) = c0
  have hadj1 : 1200 ≤ adj := le_max_left _ _
  have hc1 : (100 : ℚ) ≤ max 100 (min c0 800) := le_max_left _ _
  have hr1 := jsRound_le ((adj - p * 4 - f * 9) / 4)
  have hr2 := lt_jsRound ((adj - p * 4 - f * 9) / 4)
  split_ifs with hif
  · rcases le_total (100 : ℚ) (jsRound ((adj - p * 4 - f * 9) / 4)) with hk | hk
    · rw [max_eq_right hk]
      constructor
      · intro h
        have := (abs_le.mp h).2
        linarith
      · intro _
        rw [abs_le]
        constructor <;> linarith
    · rw [max_eq_left hk]
      constructor
      · intro h
        have := (abs_le.mp h).2
        linarith
      · intro h
        rcases eq_or_lt_of_le hk with he | hl
        · rw [abs_le]
          rw [he] at hr1 hr2
          constructor <;> linarith
        · have := jsRound_lt_hundred _ hl
          rw [abs_le]
          constructor <;> linarith
  · have hle := not_lt.mp hif
    constructor
    · intro h
      have := (abs_le.mp h).2
      linarith
    · intro _
      have e : 4 * p + 9 * f + 4 * max 100 (min c0 800) - adj =
          p * 4 + f * 9 + max 100 (min c0 800) * 4 - adj := by ring
      rw [e]
      exact hle

theorem macros_fit (calories p share : ℚ) (hs0 : 0 ≤ share) (hs1 : share ≤ 11 / 10)
    (hp1 : 4 * p + 715 ≤ 1320) (hp2 : 4 * p + 809 / 2 ≤ (11 / 10 - share) * 1200) :
    4 * p + 9 * max 35 (min (jsRound (calories * share / 9)) 200) + 400 ≤
      max 1200 calories * (11 / 10) := by
  have hadj : (1200 : ℚ) ≤ max 1200 calories := le_max_left _ _
  have hcal : calories ≤ max 1200 calories := le_max_right _ _
  have hr := jsRound_le (calories * share / 9)
  have h1 : calories * share ≤ max 1200 calories * share :=
    mul_le_mul_of_nonneg_right hcal hs0
  have h2 : (11 / 10 - share) * 1200 ≤ (11 / 10 - share) * max 1200 calories :=
    mul_le_mul_of_nonneg_left hadj (by linarith)
  have hf : max 35 (min (jsRound (calories * share / 9)) 200) ≤
      (max 1200 calories * (11 / 10) - 400 - 4 * p) / 9 := by
    apply max_le
    · linarith
    · have := min_le_left (jsRound (calories * share / 9)) 200
      linarith
  linarith

/-- With the user data left out, as in every call of the bot, the energy of the
macros returned by `calculateTargets` is within 10% of the calories returned, for
every calories value and goal. -/
theorem calculateTargets_energy_without_userData (calories : ℚ) (goal : Option String) :
    |macroEnergy (calculateTargets calories goal emptyUserData) -
        (calculateTargets calories goal emptyUserData).targetCaloriesPerDay| ≤
      (calculateTargets calories goal emptyUserData).targetCaloriesPerDay * (1 / 10) := by
  rw [calculateTargets_energy_iff]
  simp only [calculateTargets]
  have h70 : targetsWeight emptyUserData = 70 := by decide!
  rw [h70]
  generalize targetsGoal goal emptyUserData = g
  have p1 : max 50 (min (jsRound (70 * (18 / 10))) 400) = 126 := by decide!
  have p2 : max 50 (min (jsRound (70 * 2)) 400) = 140 := by decide!
  have p3 : max 50 (min (jsRound (70 * (14 / 10))) 400) = 98 := by decide!
  have p4 : max 50 (min (jsRound (70 * (16 / 10))) 400) = 112 := by decide!
  have k1 : proteinPerKg "lose_weight" = 18 / 10 ∧ fatShare "lose_weight" = 20 / 100 := by
    decide!
  have k2 : proteinPerKg "gain_muscle" = 2 ∧ fatShare "gain_muscle" = 25 / 100 := by
    decide!
  have k3 : proteinPerKg "health" = 14 / 10 ∧ fatShare "health" = 30 / 100 := by
    decide!
  by_cases g1 : g = "lose_weight"
  · subst g1
    rw [k1.1, k1.2, p1]
    exact macros_fit calories 126 (20 / 100) (by norm_num) (by norm_num) (by norm_num)
      (by norm_num)
  · by_cases g2 : g = "gain_muscle"
    · subst g2
      rw [k2.1, k2.2, p2]
      exact macros_fit calories 140 (25 / 100) (by norm_num) (by norm_num) (by norm_num)
        (by norm_num)
    · by_cases g3 : g = "health"
      · subst g3
        rw [k3.1, k3.2, p3]
        exact macros_fit calories 98 (30 / 100) (by norm_num) (by norm_num) (by norm_num)
          (by norm_num)
      · have k4 : proteinPerKg g = 16 / 10 ∧ fatShare g = 25 / 100 := by
          simp only [proteinPerKg, fatShare, g1, g2, g3, if_false, and_self]
        rw [k4.1, k4.2, p4]
        exact macros_fit calories 112 (25 / 100) (by norm_num) (by norm_num) (by norm_num)
          (by norm_num)

/-- Claim C5, evaluated where it fails: a user with the goal `lose_weight` who sets the
weight to 100 kg gets the weight stored and a protein target of 126 g, which is 1.8 g
for each of 70 kg; from the new weight it would be 180 g.  Whatever the text sent, the
protein target stored is the former one or the one computed from 70 kg. -/
theorem settings_weight_protein_from_70 :
    (settingsWeightInput sampleUser "100").user.profile.weight = some 100 ∧
    (settingsWeightInput sampleUser "100").user.targetProtein = some 126 ∧
    max 50 (min (jsRound (100 * proteinPerKg "lose_weight")) 400) = 180 ∧
    ∀ (user : User) (text : String),
      (settingsWeightInput user text).user.targetProtein = user.targetProtein ∨
      (settingsWeightInput user text).user.targetProtein =
        some (max 50 (min (jsRound
          (70 * proteinPerKg (targetsGoal user.profile.mainGoal emptyUserData))) 400)) := by
  refine ⟨by decide!, by decide!, by decide!, ?_⟩
  intro user text
  unfold settingsWeightInput
  split
  · exact Or.inl rfl
  · split
    · exact Or.inl rfl
    · refine Or.inr ?_
      have h70 : targetsWeight emptyUserData = 70 := by decide!
      simp [calculateTargets, h70]

/-! ## The food clarification dialogue -/

/-- Claim C6: for every input string `parseWeightText` returns `null` or a weight `w`
in grams with `1 ≤ w ≤ 10000`, whichever of its three paths produced it. -/
theorem parseWeightText_range (text : String) :
    parseWeightText text = none ∨
      ∃ w, parseWeightText text = some w ∧ 1 ≤ w ∧ w ≤ 10000 := by
  cases hres : parseWeightText text with
  | none => exact Or.inl rfl
  | some r =>
    refine Or.inr ⟨r, rfl, ?_⟩
    unfold parseWeightText at hres
    simp only at hres
    split at hres
    · unfold parseWithUnit at hres
      split at hres
      · exact weightInRange_bounds _ _ hres
      · cases hres
    · split at hres
      · unfold parseBareNumber at hres
        split at hres
        · exact weightInRange_bounds _ _ hres
        · cases hres
      · unfold parseNumberWord at hres
        split at hres
        · exact weightInRange_bounds _ _ hres
        · cases hres

/-- Claim C7, evaluated at the three examples of the prompt: `200` and `двести` are
parsed to 200, while `сто пятьдесят` is not parsed, so a user waiting for the weight
who sends it is asked for the weight again and stays in the dialogue. -/
theorem weight_prompt_examples :
    parseWeightText "200" = some 200 ∧
    parseWeightText "двести" = some 200 ∧
    parseWeightText "сто пятьдесят" = none ∧
    ∀ sv : Services,
      handleFoodDetailsResponse sv 1000 waitingForWeight "сто пятьдесят" =
        ⟨waitingForWeight, [.stateWeightAgain]⟩ := by
  refine ⟨by decide!, by decide!, by decide!, ?_⟩
  intro sv
  have hw : parseWeightText "сто пятьдесят" = none := by decide!
  have hs : waitingForWeight.state = some AWAITING_FOOD_WEIGHT := by decide
  have hne : AWAITING_FOOD_WEIGHT ≠ AWAITING_FOOD_TYPE := by decide
  have hx : ¬ ("сто пятьдесят" = "⭕ Отменить") := by decide
  simp [handleFoodDetailsResponse, answerFoodWeight, hw, hs, hne, hx]

/-- Claim C8, evaluated at the example of the prompt: `куриное мясо` still needs a
clarification of the type, so a user waiting for the type who sends it, at any time,
receives the answer that the type is too generic and stays in the same state. -/
theorem prompt_example_still_generic :
    needsTypeClarification "куриное мясо" = true ∧
    waitingForType.state = some AWAITING_FOOD_TYPE ∧
    ∀ (sv : Services) (now : Nat),
      onMessage sv sampleButtons now (some waitingForType) "куриное мясо" =
        .foodDetails ⟨waitingForType, [.stillTooGeneric "куриное мясо"]⟩ := by
  refine ⟨by decide, by decide, ?_⟩
  intro sv now
  have h : needsTypeClarification "куриное мясо" = true := by decide
  have hb : decide ("куриное мясо" ∈ sampleButtons) = false := by decide
  have hc : isCommand "куриное мясо" = false := by decide
  have hs : waitingForType.state = some AWAITING_FOOD_TYPE := by decide
  have ht : truthyStr (some AWAITING_FOOD_TYPE) = true := by decide
  simp only [decide_eq_false_iff_not] at hb
  simp [onMessage, handleFoodDetailsResponse, answerFoodType, h, hb, hc, hs, ht]

/-- Claim C9, evaluated where it fails: the weight clarification opened at time `0`
expires at 600000 ms; the text `200` sent a day later, at 86400000 ms, is still taken
as the weight: the dialogue is closed and the analysis scaled to 200 g is offered for
confirmation. -/
theorem late_answer_consumed :
    waitingForWeight.state = some AWAITING_FOOD_WEIGHT ∧
    waitingForWeight.foodDetailsTimeout = some 600000 ∧
    600000 < 86400000 ∧
    ∀ sv : Services,
      onMessage sv sampleButtons 86400000 (some waitingForWeight) "200" =
        .foodDetails ⟨⟨emptyUserData, none, none, none, none, some (scaledChicken sv),
            none, none, none, none⟩,
          [.confirmation (some (replaceGrams (sv.render 200 ++ "г") "Курица 100г"))
            (scaledChicken sv)]⟩ := by
  refine ⟨by decide, by decide, by decide, ?_⟩
  intro sv
  have hb : decide ("200" ∈ sampleButtons) = false := by decide
  have hc : isCommand "200" = false := by decide
  have hs : waitingForWeight.state = some AWAITING_FOOD_WEIGHT := by decide
  have ht : truthyStr (some AWAITING_FOOD_WEIGHT) = true := by decide
  have hw : parseWeightText "200" = some 200 := by decide!
  have hp : waitingForWeight.pendingAnalysis = some chickenPer100g := by decide!
  have hne : AWAITING_FOOD_WEIGHT ≠ AWAITING_FOOD_TYPE := by decide
  have hcl : clearPending waitingForWeight = idleUser emptyUserData := by decide!
  have r1 : jsRound (doubleMul 165 (doubleDiv 200 100)) = 330 := by decide!
  have r2 : toFixed1 (doubleMul 31 (doubleDiv 200 100)) = 62 := by decide!
  have r3 : toFixed1 (doubleMul (36 / 10) (doubleDiv 200 100)) = 72 / 10 := by decide!
  have r4 : toFixed1 (doubleMul 0 (doubleDiv 200 100)) = 0 := by decide!
  have hscale : scaleNutritionByWeight sv.render (some chickenPer100g) 200 =
      .ok (scaledChicken sv) := by
    simp only [scaleNutritionByWeight, chickenPer100g, scaledChicken, r1, r2, r3, r4]
  simp only [decide_eq_false_iff_not] at hb
  simp only [onMessage, handleFoodDetailsResponse, answerFoodWeight, hw, hp, hscale]
  simp [hb, hc, hs, ht, hne, sendFoodConfirmationMessage, hcl, idleUser, scaledChicken]
  norm_num

/-- Claim C10 as stated fails: for the analysis of 100 g of chicken with 165 kcal and
31 g of protein, the code multiplies by the double `70 / 100`, whose product with 165
lies just below 115.5, and returns 115 kcal, while `Math.round(165 * 70 / 100)` is 116;
at 15 g it returns 4.6 g of protein, while 31 * 15 / 100 rounded to one place is 4.7. -/
theorem scale_factor_rounding_off :
    scaleNutritionByWeight (fun _ => "70") (some chickenPer100g) 70 =
      .ok ⟨true, some ⟨some "Курица 70г", some ⟨115, 217 / 10, 25 / 10, 0⟩⟩, none, none⟩ ∧
    jsRound (165 * 70 / 100) = 116 ∧
    jsRound (doubleDiv (doubleMul 165 70) 100) = 116 ∧
    scaleNutritionByWeight (fun _ => "15") (some chickenPer100g) 15 =
      .ok ⟨true, some ⟨some "Курица 15г", some ⟨25, 46 / 10, 5 / 10, 0⟩⟩, none, none⟩ ∧
    toFixed1 (31 * 15 / 100) = 47 / 10 := by
  decide!

/-- Claim C10, amended: for an analysis with `analysis.total` and a string
`analysis.description`, and every weight `w`, `scaleNutritionByWeight` returns the
analysis with `success`, `source` and `error` unchanged, the weight written into the
description and the totals scaled by the factor `w / 100` taken as a double: the
calories are the double product rounded to an integer and protein, fat and carbs the
double products rounded to tenths; without `analysis.total` it throws its own error,
and with the total but without a string description it throws a `TypeError`. -/
theorem scaleNutritionByWeight_spec (render : ℚ → String) (a : Analysis) (w : ℚ) :
    match a.analysis.bind (fun b => b.total), a.analysis.bind (fun b => b.description) with
    | none, _ => scaleNutritionByWeight render (some a) w = .error .invalidAnalysis
    | some _, none => scaleNutritionByWeight render (some a) w = .error .typeError
    | some total, some description =>
      ∃ r rb rt, scaleNutritionByWeight render (some a) w = .ok r ∧
        r.success = a.success ∧ r.source = a.source ∧ r.error = a.error ∧
        r.analysis = some rb ∧ rb.total = some rt ∧
        rb.description = some (replaceGrams (render w ++ "г") description) ∧
        rt.calories = jsRound (doubleMul total.calories (doubleDiv w 100)) ∧
        rt.protein = toFixed1 (doubleMul total.protein (doubleDiv w 100)) ∧
        rt.fat = toFixed1 (doubleMul total.fat (doubleDiv w 100)) ∧
        rt.carbs = toFixed1 (doubleMul total.carbs (doubleDiv w 100)) ∧
        RoundedTo 1 (doubleMul total.calories (doubleDiv w 100)) rt.calories ∧
        RoundedTo (1 / 10) (doubleMul total.protein (doubleDiv w 100)) rt.protein ∧
        RoundedTo (1 / 10) (doubleMul total.fat (doubleDiv w 100)) rt.fat ∧
        RoundedTo (1 / 10) (doubleMul total.carbs (doubleDiv w 100)) rt.carbs := by
  rcases a with ⟨success, body, source, error⟩
  cases body with
  | none => simp [scaleNutritionByWeight]
  | some b =>
    rcases b with ⟨description, total⟩
    cases total with
    | none => simp [scaleNutritionByWeight]
    | some t =>
      cases description with
      | none => simp [scaleNutritionByWeight]
      | some d =>
        simp only [scaleNutritionByWeight, Option.bind]
        exact ⟨_, _, _, rfl, rfl, rfl, rfl, rfl, rfl, rfl, rfl, rfl, rfl, rfl,
          jsRound_roundedTo _, toFixed1_roundedTo _, toFixed1_roundedTo _,
          toFixed1_roundedTo _⟩

/-- The amended claim C10 at the analysis of 100 g of chicken and a weight of 200 g:
the call returns, and the totals are those of the double products with the factor
`200 / 100`. -/
theorem scaleNutritionByWeight_spec_witness :
    ∃ r rb rt, scaleNutritionByWeight (fun _ => "200") (some chickenPer100g) 200 = .ok r ∧
      r.success = true ∧ r.source = none ∧ r.error = none ∧
      r.analysis = some rb ∧ rb.total = some rt ∧
      rb.description = some (replaceGrams ("200" ++ "г") "Курица 100г") ∧
      rt.calories = jsRound (doubleMul 165 (doubleDiv 200 100)) ∧
      rt.protein = toFixed1 (doubleMul 31 (doubleDiv 200 100)) ∧
      rt.fat = toFixed1 (doubleMul (36 / 10) (doubleDiv 200 100)) ∧
      rt.carbs = toFixed1 (doubleMul 0 (doubleDiv 200 100)) ∧
      RoundedTo 1 (doubleMul 165 (doubleDiv 200 100)) rt.calories ∧
      RoundedTo (1 / 10) (doubleMul 31 (doubleDiv 200 100)) rt.protein ∧
      RoundedTo (1 / 10) (doubleMul (36 / 10) (doubleDiv 200 100)) rt.fat ∧
      RoundedTo (1 / 10) (doubleMul 0 (doubleDiv 200 100)) rt.carbs :=
  scaleNutritionByWeight_spec (fun _ => "200") chickenPer100g 200

/-! ## The validation of an analysis result -/

/-- Claim C11: `validateAnalysisResult` never throws; whenever it returns `true` the
result has a truthy `success`, a string description of length at least 2, calories
that are a finite number with `0 < calories ≤ 50000`, and protein, fat and carbs that
are finite numbers `≥ 0`; for a result whose `analysis` is missing, or whose
`analysis.total` is missing, it returns `false`. -/
theorem validateAnalysisResult_sound (result text : JsValue) :
    (∃ valid, validateAnalysisResult result text = .ok valid) ∧
    (validateAnalysisResult result text = .ok true →
      (result.field "success").truthy = true ∧
      (∃ d, (result.field "analysis").field "description" = .string d ∧ 2 ≤ jsLength d) ∧
      (∃ calories protein fat carbs : ℚ,
        ((result.field "analysis").field "total").field "calories" = .number calories ∧
        ((result.field "analysis").field "total").field "protein" = .number protein ∧
        ((result.field "analysis").field "total").field "fat" = .number fat ∧
        ((result.field "analysis").field "total").field "carbs" = .number carbs ∧
        0 < calories ∧ calories ≤ 50000 ∧ 0 ≤ protein ∧ 0 ≤ fat ∧ 0 ≤ carbs)) ∧
    ((result.field "analysis").nullish = true ∨
        ((result.field "analysis").field "total").nullish = true →
      validateAnalysisResult result text = .ok false) := by
  refine ⟨?_, ?_, ?_⟩
  · unfold validateAnalysisResult
    cases validateChecks result text with
    | ok valid => exact ⟨valid, rfl⟩
    | error e => exact ⟨false, rfl⟩
  · intro h
    have hc : validateChecks result text = .ok true := by
      unfold validateAnalysisResult at h
      cases hv : validateChecks result text with
      | ok valid => rw [hv] at h; simpa using h
      | error e => rw [hv] at h; simp at h
    unfold validateChecks at hc
    split at hc
    · cases hc
    · rename_i hnull
      split at hc
      · simp at hc
      · rename_i hflags
        simp only [Bool.or_eq_true, Bool.not_eq_true', not_or, Bool.not_eq_false] at hflags
        simp only at hc
        split at hc
        · rename_i d hd
          split at hc
          · simp at hc
          · rename_i hlen
            split at hc
            · cases hc
            · split at hc
              · rename_i calories protein fat carbs h1 h2 h3 h4
                split at hc
                · simp at hc
                · rename_i hrange
                  simp only [not_or, not_le, not_lt] at hrange hlen
                  exact ⟨hflags.1, ⟨d, hd, hlen.2⟩,
                    ⟨calories, protein, fat, carbs, h1, h2, h3, h4, hrange.1, hrange.2.1,
                      hrange.2.2.1, hrange.2.2.2.1, hrange.2.2.2.2⟩⟩
              · simp at hc
        · simp at hc
  · intro h
    unfold validateAnalysisResult
    cases hv : validateChecks result text with
    | error e => rfl
    | ok valid =>
      cases valid with
      | false => rfl
      | true =>
        exfalso
        unfold validateChecks at hv
        split at hv
        · cases hv
        · split at hv
          · simp at hv
          · rename_i hflags
            simp only [Bool.or_eq_true, Bool.not_eq_true', not_or, Bool.not_eq_false] at hflags
            rcases h with h | h
            · have ht := hflags.2
              cases ha : result.field "analysis" <;> rw [ha] at h ht <;>
                simp [JsValue.nullish, JsValue.truthy] at h ht
            · simp only at hv
              split at hv
              · split at hv
                · simp at hv
                · cases hv
              · simp at hv

/-- Claim C11 at the result object of 100 g of chicken and the text `курица 100г`:
the validation returns `true`, so the result has the properties listed. -/
theorem validateAnalysisResult_sound_witness :
    (chickenResult.field "success").truthy = true ∧
    (∃ d, (chickenResult.field "analysis").field "description" = .string d ∧
      2 ≤ jsLength d) ∧
    (∃ calories protein fat carbs : ℚ,
      ((chickenResult.field "analysis").field "total").field "calories" = .number calories ∧
      ((chickenResult.field "analysis").field "total").field "protein" = .number protein ∧
      ((chickenResult.field "analysis").field "total").field "fat" = .number fat ∧
      ((chickenResult.field "analysis").field "total").field "carbs" = .number carbs ∧
      0 < calories ∧ calories ≤ 50000 ∧ 0 ≤ protein ∧ 0 ≤ fat ∧ 0 ≤ carbs) :=
  (validateAnalysisResult_sound chickenResult (.string "курица 100г")).2.1 (by decide!)

/-! ## The scheduler -/

theorem mapGet_eq_none_iff (m : List (Nat × List Nat)) (key : Nat) :
    mapGet m key = none ↔ key ∉ m.map Prod.fst := by
  induction m with
  | nil => simp [mapGet]
  | cons e rest ih =>
    simp only [mapGet, List.map_cons, List.mem_cons, not_or]
    by_cases h : e.1 = key
    · simp [h]
    · simp only [h, if_false, ih]
      constructor
      · intro hk
        exact ⟨fun h' => h h'.symm, hk⟩
      · intro hk
        exact hk.2

theorem mapGet_mapDelete (m : List (Nat × List Nat)) (key other : Nat) :
    mapGet (mapDelete m key) other = if other = key then none else mapGet m other := by
  induction m with
  | nil => simp [mapGet, mapDelete]
  | cons e rest ih =>
    by_cases h : e.1 = key
    · have hd : mapDelete (e :: rest) key = mapDelete rest key := by
        simp [mapDelete, List.filter_cons, h]
      rw [hd, ih]
      by_cases ho : other = key
      · simp [ho]
      · have hne : ¬ e.1 = other := fun h' => ho (h'.symm.trans h)
        simp [ho, mapGet, hne]
    · have hd : mapDelete (e :: rest) key = e :: mapDelete rest key := by
        simp [mapDelete, List.filter_cons, h]
      rw [hd]
      simp only [mapGet, ih]
      by_cases he : e.1 = other
      · have hne : ¬ other = key := fun h' => h (he.trans h')
        simp [he, hne]
      · simp [he]

theorem mapGet_replace (m : List (Nat × List Nat)) (key other : Nat) (value : List Nat)
    (hhas : mapGet m key ≠ none) :
    mapGet (m.map fun e => if e.1 = key then (key, value) else e) other =
      if other = key then some value else mapGet m other := by
  induction m with
  | nil => simp [mapGet] at hhas
  | cons e rest ih =>
    by_cases h : e.1 = key
    · by_cases ho : other = key
      · simp [mapGet, h, ho]
      · have hne : ¬ key = other := fun h' => ho h'.symm
        have hne' : ¬ e.1 = other := fun h' => ho (h'.symm.trans h)
        simp only [List.map_cons, h, if_true, mapGet, hne, if_false, ho, hne']
        clear ih hhas
        induction rest with
        | nil => simp [mapGet]
        | cons e' rest' ih' =>
          by_cases h' : e'.1 = key
          · simp only [List.map_cons, h', if_true, mapGet, hne, if_false, ih']
          · simp only [List.map_cons, h', if_false, mapGet, ih']
    · have hrest : mapGet rest key ≠ none := by
        simpa [mapGet, h] using hhas
      simp only [List.map_cons, h, if_false, mapGet, ih hrest]
      by_cases he : e.1 = other
      · have hne : ¬ other = key := fun h' => h (he.trans h')
        simp [he, hne]
      · simp [he]

theorem mapGet_append_new (m : List (Nat × List Nat)) (key other : Nat) (value : List Nat)
    (hnone : mapGet m key = none) :
    mapGet (m ++ [(key, value)]) other =
      if other = key then some value else mapGet m other := by
  induction m with
  | nil =>
    by_cases ho : other = key
    · simp [mapGet, ho]
    · have hne : ¬ key = other := fun h' => ho h'.symm
      simp [mapGet, ho, hne]
  | cons e rest ih =>
    by_cases h : e.1 = key
    · simp [mapGet, h] at hnone
    · have hrest : mapGet rest key = none := by
        simpa [mapGet, h] using hnone
      have hstep : mapGet (e :: rest ++ [(key, value)]) other =
          if e.1 = other then some e.2 else mapGet (rest ++ [(key, value)]) other := rfl
      rw [hstep, ih hrest]
      by_cases he : e.1 = other
      · have hne : ¬ other = key := fun h' => h (he.trans h')
        simp [mapGet, he, hne]
      · simp [mapGet, he]

theorem mapGet_mapSet (m : List (Nat × List Nat)) (key other : Nat) (value : List Nat) :
    mapGet (mapSet m key value) other = if other = key then some value else mapGet m other := by
  unfold mapSet mapHas
  cases hg : mapGet m key with
  | none =>
    simp only [Option.isSome_none, Bool.false_eq_true, if_false]
    exact mapGet_append_new m key other value hg
  | some v =>
    simp only [Option.isSome_some, if_true]
    exact mapGet_replace m key other value (by simp [hg])

theorem keys_mapDelete (m : List (Nat × List Nat)) (key : Nat)
    (h : (m.map Prod.fst).Nodup) : ((mapDelete m key).map Prod.fst).Nodup :=
  h.sublist ((List.filter_sublist m).map Prod.fst)

theorem keys_mapSet (m : List (Nat × List Nat)) (key : Nat) (value : List Nat)
    (h : (m.map Prod.fst).Nodup) : ((mapSet m key value).map Prod.fst).Nodup := by
  unfold mapSet
  split
  · have e : (m.map fun e => if e.1 = key then (key, value) else e).map Prod.fst =
        m.map Prod.fst := by
      rw [List.map_map]
      apply List.map_congr_left
      intro a _
      simp only [Function.comp]
      split
      · rename_i hk
        exact hk.symm
      · rfl
    rw [e]
    exact h
  · rename_i hhas
    have hn : mapGet m key = none := by
      unfold mapHas at hhas
      cases hg : mapGet m key with
      | none => rfl
      | some v => simp [hg] at hhas
    rw [List.map_append, List.nodup_append]
    refine ⟨h, by simp, ?_⟩
    intro a ha hb
    simp only [List.map_cons, List.map_nil, List.mem_singleton] at hb
    subst hb
    exact (mapGet_eq_none_iff m a).mp hn ha

theorem foldl_stopJob (jobs : List Nat) (tasks : List CronJob) :
    jobs.foldl stopJob tasks =
      tasks.map fun j => if j.handle ∈ jobs then { j with running := false } else j := by
  induction jobs generalizing tasks with
  | nil => simp
  | cons h rest ih =>
    simp only [List.foldl_cons, ih, stopJob, List.map_map]
    apply List.map_congr_left
    intro j _
    simp only [Function.comp, List.mem_cons]
    by_cases hj : j.handle = h
    · simp [hj]
    · simp [hj]

theorem schedule_all (user : SchedulerUser) (s : SchedulerState) :
    (getUserNotifications user).foldl (scheduleNotification user) (s, []) =
      (⟨s.activeJobs, s.tasks ++ freshJobs user s.nextHandle, s.nextHandle + 4⟩,
        [s.nextHandle, s.nextHandle + 1, s.nextHandle + 2, s.nextHandle + 3]) := by
  simp [getUserNotifications, scheduleNotification, SCHEDULE_TYPES, List.lookup, freshJobs]

theorem stopped_other_user (tasks : List CronJob) (jobs : List Nat) (userId : Nat)
    (hsep : ∀ j ∈ tasks, j.handle ∈ jobs → j.notification.userId ≠ userId) :
    ((tasks.map fun j => if j.handle ∈ jobs then { j with running := false } else j).filter
        fun j => j.running && decide (j.notification.userId = userId)).map (fun j => j.handle) =
      (tasks.filter fun j => j.running && decide (j.notification.userId = userId)).map
        fun j => j.handle := by
  induction tasks with
  | nil => rfl
  | cons j rest ih =>
    have ih' := ih fun x hx => hsep x (List.mem_cons_of_mem j hx)
    have hj := hsep j (List.mem_cons_self j rest)
    by_cases hm : j.handle ∈ jobs
    · have hne := hj hm
      simp only [List.map_cons, hm, if_true, List.filter_cons, hne, decide_False,
        Bool.and_false, Bool.false_eq_true, if_false]
      exact ih'
    · simp only [List.map_cons, hm, if_false, List.filter_cons]
      split
      · simp only [List.map_cons, ih']
      · exact ih'

theorem stopped_same_user (tasks : List CronJob) (jobs : List Nat) (userId : Nat)
    (hall : ∀ j ∈ tasks, j.running = true → j.notification.userId = userId →
      j.handle ∈ jobs) :
    ((tasks.map fun j => if j.handle ∈ jobs then { j with running := false } else j).filter
        fun j => j.running && decide (j.notification.userId = userId)) = [] := by
  rw [List.filter_eq_nil_iff]
  intro x hx
  rw [List.mem_map] at hx
  obtain ⟨j, hj, rfl⟩ := hx
  by_cases hm : j.handle ∈ jobs
  · simp [hm]
  · simp only [hm, if_false, Bool.and_eq_true, decide_eq_true_eq, not_and]
    intro hr hu
    exact hm (hall j hj hr hu)

theorem stopUserScheduler_inv (s : SchedulerState) (userId : Nat) (h : SchedulerInv s) :
    SchedulerInv (stopUserScheduler s userId) := by
  unfold stopUserScheduler
  cases hg : mapGet s.activeJobs userId with
  | none => exact h
  | some jobs =>
    have hrun : runningJobs s userId = jobs := by
      rw [h.running, entryJobs, hg]
      rfl
    have hall : ∀ j ∈ s.tasks, j.running = true → j.notification.userId = userId →
        j.handle ∈ jobs := by
      intro j hj hr hu
      rw [← hrun, runningJobs, List.mem_map]
      exact ⟨j, List.mem_filter.mpr ⟨hj, by simp [hr, hu]⟩, rfl⟩
    have howner : ∀ j ∈ s.tasks, j.handle ∈ jobs → j.notification.userId = userId := by
      intro j hj hm
      rw [← hrun, runningJobs, List.mem_map] at hm
      obtain ⟨j', hj', he⟩ := hm
      rw [List.mem_filter] at hj'
      have hjj : j' = j := List.inj_on_of_nodup_map h.handles hj'.1 hj he
      subst hjj
      have := hj'.2
      simp only [Bool.and_eq_true, decide_eq_true_eq] at this
      exact this.2
    have hhandles : ((s.tasks.map fun j =>
        if j.handle ∈ jobs then { j with running := false } else j).map fun j => j.handle) =
        s.tasks.map fun j => j.handle := by
      rw [List.map_map]
      apply List.map_congr_left
      intro j _
      simp only [Function.comp]
      split <;> rfl
    simp only [foldl_stopJob]
    refine ⟨keys_mapDelete _ _ h.keys, ?_, ?_, ?_, ?_⟩
    · simp only [hhandles]
      exact h.handles
    · intro x hx
      simp only [List.mem_map] at hx
      obtain ⟨j, hj, rfl⟩ := hx
      have := h.below j hj
      split <;> exact this
    · intro other
      simp only [runningJobs, entryJobs, mapGet_mapDelete]
      by_cases ho : other = userId
      · subst ho
        simp only [if_true, Option.getD_none]
        rw [stopped_same_user s.tasks jobs other hall]
        rfl
      · simp only [ho, if_false]
        rw [stopped_other_user s.tasks jobs other
          (fun j hj hm hu => ho (hu.symm.trans (howner j hj hm)))]
        exact h.running other
    · intro other js hjs
      simp only [mapGet_mapDelete] at hjs
      by_cases ho : other = userId
      · simp [ho] at hjs
      · simp only [ho, if_false] at hjs
        exact h.four other js hjs

theorem emptyScheduler_inv : SchedulerInv emptyScheduler :=
  ⟨by simp [emptyScheduler], by simp [emptyScheduler], by simp [emptyScheduler],
    fun _ => rfl, fun _ _ h => by simp [emptyScheduler, mapGet] at h⟩

theorem stopUserScheduler_nextHandle (s : SchedulerState) (userId : Nat) :
    (stopUserScheduler s userId).nextHandle = s.nextHandle := by
  unfold stopUserScheduler
  split <;> rfl

theorem stopUserScheduler_entry (s : SchedulerState) (userId : Nat) :
    mapGet (stopUserScheduler s userId).activeJobs userId = none := by
  unfold stopUserScheduler
  split
  · simp [mapGet_mapDelete]
  · assumption

theorem startUserScheduler_eq (s : SchedulerState) (user : SchedulerUser) :
    startUserScheduler s user =
      ⟨mapSet (stopUserScheduler s user.id).activeJobs user.id
          [s.nextHandle, s.nextHandle + 1, s.nextHandle + 2, s.nextHandle + 3],
        (stopUserScheduler s user.id).tasks ++ freshJobs user s.nextHandle,
        s.nextHandle + 4⟩ := by
  have hstop : (if mapHas s.activeJobs user.id then stopUserScheduler s user.id else s) =
      stopUserScheduler s user.id := by
    split
    · rfl
    · rename_i hhas
      unfold stopUserScheduler
      unfold mapHas at hhas
      cases hg : mapGet s.activeJobs user.id with
      | none => rfl
      | some v => simp [hg] at hhas
  unfold startUserScheduler
  simp only [hstop, schedule_all, stopUserScheduler_nextHandle]

theorem startUserScheduler_inv (s : SchedulerState) (user : SchedulerUser)
    (h : SchedulerInv s) : SchedulerInv (startUserScheduler s user) := by
  rw [startUserScheduler_eq]
  have hst := stopUserScheduler_inv s user.id h
  have hnone := stopUserScheduler_entry s user.id
  have hnext := stopUserScheduler_nextHandle s user.id
  generalize stopUserScheduler s user.id = st at hst hnone hnext
  have hold : runningJobs st user.id = [] := by
    rw [hst.running, entryJobs, hnone]
    rfl
  refine ⟨keys_mapSet _ _ _ hst.keys, ?_, ?_, ?_, ?_⟩
  · simp only [List.map_append, freshJobs, List.map_cons, List.map_nil]
    rw [List.nodup_append]
    refine ⟨hst.handles, by simp, ?_⟩
    intro a ha hb
    rw [List.mem_map] at ha
    obtain ⟨j, hj, rfl⟩ := ha
    have hlt := hst.below j hj
    simp only [List.mem_cons, List.mem_singleton, List.not_mem_nil, or_false] at hb
    omega
  · intro j hj
    rw [List.mem_append] at hj
    rcases hj with hj | hj
    · have hlt := hst.below j hj
      show j.handle < s.nextHandle + 4
      omega
    · simp only [freshJobs, List.mem_cons, List.mem_singleton, List.not_mem_nil,
        or_false] at hj
      show j.handle < s.nextHandle + 4
      rcases hj with rfl | rfl | rfl | rfl <;> simp
  · intro other
    simp only [runningJobs, entryJobs, mapGet_mapSet, List.filter_append, List.map_append]
    by_cases ho : other = user.id
    · subst ho
      have hold' := hold
      simp only [runningJobs] at hold'
      rw [hold']
      simp [freshJobs]
    · have hne : ¬ user.id = other := fun h' => ho h'.symm
      have hrest := hst.running other
      simp only [runningJobs, entryJobs] at hrest
      rw [hrest]
      simp [freshJobs, ho, hne]
  · intro other js hjs
    simp only [mapGet_mapSet] at hjs
    by_cases ho : other = user.id
    · simp only [ho, if_true, Option.some.injEq] at hjs
      subst hjs
      rfl
    · simp only [ho, if_false] at hjs
      exact hst.four other js hjs

theorem applyCall_inv (s : SchedulerState) (call : SchedulerCall) (h : SchedulerInv s) :
    SchedulerInv (applyCall s call) := by
  cases call with
  | start user => exact startUserScheduler_inv s user h
  | stop userId => exact stopUserScheduler_inv s userId h

theorem foldl_applyCall_inv (calls : List SchedulerCall) (s : SchedulerState)
    (h : SchedulerInv s) : SchedulerInv (calls.foldl applyCall s) := by
  induction calls generalizing s with
  | nil => exact h
  | cons call rest ih => exact ih _ (applyCall_inv s call h)

theorem runCalls_inv (calls : List SchedulerCall) : SchedulerInv (runCalls calls) :=
  foldl_applyCall_inv calls emptyScheduler emptyScheduler_inv

theorem runCalls_append (calls : List SchedulerCall) (call : SchedulerCall) :
    runCalls (calls ++ [call]) = applyCall (runCalls calls) call := by
  simp [runCalls, List.foldl_append]

/-- Claim C12: after every sequence of `startUserScheduler` and `stopUserScheduler`
calls made one after another, `activeJobs` has at most one entry for a user id and
the running tasks of every user are exactly the tasks of the user's entry; after a
start the user has four running tasks, none of them made before that call, and after
a stop the user has none. -/
theorem scheduler_one_job_list_per_user (calls : List SchedulerCall) :
    ((runCalls calls).activeJobs.map Prod.fst).Nodup ∧
    (∀ userId, runningJobs (runCalls calls) userId = entryJobs (runCalls calls) userId) ∧
    (∀ user : SchedulerUser,
      runningJobs (runCalls (calls ++ [.start user])) user.id =
        [(runCalls calls).nextHandle, (runCalls calls).nextHandle + 1,
          (runCalls calls).nextHandle + 2, (runCalls calls).nextHandle + 3]) ∧
    (∀ j ∈ (runCalls calls).tasks, j.handle < (runCalls calls).nextHandle) ∧
    (∀ userId, runningJobs (runCalls (calls ++ [.stop userId])) userId = []) := by
  have hinv := runCalls_inv calls
  refine ⟨hinv.keys, hinv.running, ?_, hinv.below, ?_⟩
  · intro user
    rw [(runCalls_inv _).running, runCalls_append, applyCall, startUserScheduler_eq,
      entryJobs]
    simp [mapGet_mapSet]
  · intro userId
    rw [(runCalls_inv _).running, runCalls_append, applyCall, entryJobs,
      stopUserScheduler_entry]
    rfl

/-- Claim C12 at the calls start 7, start 8, start 7: the four tasks made by the
second start of user 7 are the ones running for that user, with the handles 8 to 11,
and the entries of `activeJobs` have distinct keys. -/
theorem scheduler_one_job_list_per_user_witness :
    ((runCalls [.start ⟨7, none⟩, .start ⟨8, none⟩]).activeJobs.map Prod.fst).Nodup ∧
    runningJobs (runCalls ([.start ⟨7, none⟩, .start ⟨8, none⟩] ++ [.start ⟨7, none⟩])) 7 =
      [8, 9, 10, 11] ∧
    runningJobs (runCalls ([.start ⟨7, none⟩, .start ⟨8, none⟩] ++ [.stop 8])) 8 = [] :=
  ⟨(scheduler_one_job_list_per_user [.start ⟨7, none⟩, .start ⟨8, none⟩]).1,
    (scheduler_one_job_list_per_user [.start ⟨7, none⟩, .start ⟨8, none⟩]).2.2.1 ⟨7, none⟩,
    (scheduler_one_job_list_per_user [.start ⟨7, none⟩, .start ⟨8, none⟩]).2.2.2.2 8⟩

end NutritionistBot
